import Mathlib

/-!
Verification of the KITTI visual-odometry dataset accessor
(`KITTIDataset.py`).  The dataset routes a flat sample index to a
consecutive frame pair of one of several sequence windows and attaches
the relative camera motion between the two frames, encoded in one of
four rotation parameterizations.

Shallow embedding conventions:
* Python integers are `ℤ`; the optional constructor arguments
  `sequences`, `startFrames`, `endFrames` are `Option (List ℤ)`.
* `__init__` is `kittiInit`; it returns `Except ConsError KITTIDataset`,
  one distinct `ConsError` constructor per distinct Python exception site
  (the `ValueError`s of lines 62-79, the `TypeError` raised on line 76
  when the raw `endFrames`/`startFrames` parameters are `None`, and the
  `ValueError` that Python's `min` raises on an empty list).
* the index-routing fragment of `__getitem__` (lines 85-105) is `lookup`;
  the pose / parameterization fragment (lines 124-155) is `getitem`.
  Image loading and CUDA tensors are external collaborators and elided.
* pose matrices are exact rationals (`ℚ`); `np.linalg.inv` is `npInv`,
  the adjugate/determinant formula, which agrees with Mathlib's matrix
  inverse (`npInv_eq_inv`).
* the library rotation converters `tr2rpy`, `r2q`, `tr2eul` of
  `spatialmath` are abstract parameters `rpy`, `q`, `eul` of `getitem`.
* `helpers.first_ge` is not part of this repository's sources; it is
  modelled from the spec (see `first_ge`).
-/

/-- Max frames of each KITTI sequence (line 30 of `KITTIDataset.py`). -/
def KITTIMaxFrames : List ℤ := [4540, 1100, 4660, 800, 270, 2760, 1100, 1100, 4070, 1590, 1200]

/-- Lookup `self.KITTIMaxFrames[seq]`; the constructor only evaluates it
after `seq` has been validated to lie in `[0, 10]`. -/
def maxFrame (seq : ℤ) : ℤ := KITTIMaxFrames.getD seq.toNat 0

/-- One distinct error per distinct raise-site of `KITTIDataset.__init__`:
`emptySeq` is the `ValueError` of Python's `min` on an empty list (line 62),
`seqRange`/`startLenMismatch`/`endLenMismatch`/`invalidStart`/`invalidEnd`/
`negLength` are the explicit `ValueError`s of lines 62-79, and `typeError`
is the `TypeError` of line 76 (`None` is not subscriptable) raised when the
raw `startFrames`/`endFrames` constructor parameters were omitted. -/
inductive ConsError where
  | emptySeq
  | seqRange
  | startLenMismatch
  | endLenMismatch
  | invalidStart (seq : ℤ)
  | invalidEnd (seq : ℤ)
  | negLength
  | typeError
deriving DecidableEq, Repr

/-- The state a successfully constructed `KITTIDataset` object holds
(the fields of `self` that the index arithmetic uses). -/
structure KITTIDataset where
  sequences : List ℤ
  startFrames : List ℤ
  endFrames : List ℤ
  parameterization : String
  length : ℤ
  cumulativeLengths : List ℤ
deriving DecidableEq, Repr

/-- Pointwise zip of the three configuration lists; the constructor loop
`for i in range(len(self.sequences))` reads exactly the triples
`(sequences[i], startFrames[i], endFrames[i])` (the three lists have been
checked to have equal length before the loop runs). -/
def zip3 : List ℤ → List ℤ → List ℤ → List (ℤ × ℤ × ℤ)
  | a :: as, b :: bs, c :: cs => (a, b, c) :: zip3 as bs cs
  | _, _, _ => []

/-- The per-window validity checks of lines 71-75, phrased as the negation
of the two raise conditions. -/
def windowOk (t : ℤ × ℤ × ℤ) : Prop :=
  ¬(t.2.1 < 0 ∨ maxFrame t.1 < t.2.1) ∧ ¬(t.2.2 < 0 ∨ t.2.2 ≤ t.2.1 ∨ maxFrame t.1 < t.2.2)

instance (t : ℤ × ℤ × ℤ) : Decidable (windowOk t) :=
  inferInstanceAs (Decidable (¬(t.2.1 < 0 ∨ maxFrame t.1 < t.2.1) ∧
    ¬(t.2.2 < 0 ∨ t.2.2 ≤ t.2.1 ∨ maxFrame t.1 < t.2.2)))

/-- The validation/accumulation loop of lines 69-77.  Each iteration first
validates the window (lines 71-75) and then performs
`self.length += (endFrames[i] - startFrames[i])` (line 76) and
`self.cumulativeLengths[i] = self.length` (line 77).  Line 76 reads the RAW
constructor parameters `endFrames`/`startFrames`, not the defaulted
attributes: `rawOk` records whether both raw parameters were passed, and
when it is `false` the accumulation raises a `TypeError` (`None` is not
subscriptable).  Returns the final `self.length` and `self.cumulativeLengths`. -/
def initLoop (rawOk : Bool) : List (ℤ × ℤ × ℤ) → ℤ → Except ConsError (ℤ × List ℤ)
  | [], acc => .ok (acc, [])
  | (seq, s, e) :: rest, acc =>
    if s < 0 ∨ maxFrame seq < s then .error (.invalidStart seq)
    else if e < 0 ∨ e ≤ s ∨ maxFrame seq < e then .error (.invalidEnd seq)
    else if rawOk then
      match initLoop rawOk rest (acc + (e - s)) with
      | .error er => .error er
      | .ok (len, cum) => .ok (len, (acc + (e - s)) :: cum)
    else .error .typeError

/-- Body of `KITTIDataset.__init__` (lines 47-79) after the three optional
arguments have been defaulted.  `rawOk` records whether the raw
`startFrames` and `endFrames` parameters were both given (see `initLoop`).
The check `min(self.sequences) < 0 or max(self.sequences) > 10` (line 62)
is rendered as: error on an empty list (Python's `min` raises), otherwise
error exactly when some element lies outside `[0, 10]`. -/
def kittiInitChecked (seqs sF eF : List ℤ) (rawOk : Bool) (tag : String) :
    Except ConsError KITTIDataset :=
  if seqs = [] then .error .emptySeq
  else if ∃ s ∈ seqs, s < 0 ∨ 10 < s then .error .seqRange
  else if seqs.length ≠ sF.length then .error .startLenMismatch
  else if seqs.length ≠ eF.length then .error .endLenMismatch
  else
    match initLoop rawOk (zip3 seqs sF eF) 0 with
    | .error er => .error er
    | .ok (len, cum) =>
      if len < 0 then .error .negLength
      else .ok ⟨seqs, sF, eF, tag, len, cum⟩

/-- `KITTIDataset.__init__`: defaults the optional arguments
(`sequences or [1]`, `startFrames or [0]`, `endFrames or [1100]`,
lines 47-51) and runs the checks. -/
def kittiInit (seqsArg sFArg eFArg : Option (List ℤ)) (tag : String) :
    Except ConsError KITTIDataset :=
  kittiInitChecked (seqsArg.getD [1]) (sFArg.getD [0]) (eFArg.getD [1100])
    (sFArg.isSome && eFArg.isSome) tag

/-- `KITTIDataset.__len__` (lines 82-83). -/
def datasetLength (d : KITTIDataset) : ℤ := d.length

/-- Modelled from the spec: `helpers.first_ge`, whose source file
(`helpers.py`) is absent from the repository sources.  Per the spec's
lookup contract it returns the smallest index `k` such that
`lst[k] > idx` over the monotonically increasing cumulative table, and
fails (`none`) when no such index exists. -/
def first_ge (lst : List ℤ) (idx : ℤ) : Option ℕ :=
  match lst with
  | [] => none
  | x :: rest => if idx < x then some 0 else (first_ge rest idx).map Nat.succ

/-- Offset of lines 93-96: `idx` itself for the first window, otherwise
`idx - self.cumulativeLengths[seqKey - 1]`. -/
def offsetOf (cum : List ℤ) (seqKey : ℕ) (idx : ℤ) : ℤ :=
  if seqKey = 0 then idx else idx - cum.getD (seqKey - 1) 0

/-- Index-routing fragment of `KITTIDataset.__getitem__` (lines 85-105):
route `idx` through `first_ge`, compute the offset, the frame pair and the
end-of-sequence flag.  `none` models the out-of-range failure of
`first_ge` when no cumulative entry exceeds `idx`.  Returns
`(seqIdx, frame1, frame2, endOfSequence)`. -/
def lookup (d : KITTIDataset) (idx : ℤ) : Option (ℤ × ℤ × ℤ × Bool) :=
  match first_ge d.cumulativeLengths idx with
  | none => none
  | some seqKey =>
    some (d.sequences.getD seqKey 0,
      d.startFrames.getD seqKey 0 + offsetOf d.cumulativeLengths seqKey idx,
      d.startFrames.getD seqKey 0 + offsetOf d.cumulativeLengths seqKey idx + 1,
      decide (d.startFrames.getD seqKey 0 + offsetOf d.cumulativeLengths seqKey idx + 1 =
        d.endFrames.getD seqKey 0))

abbrev Mat3 := Matrix (Fin 3) (Fin 3) ℚ

abbrev Mat4 := Matrix (Fin 4) (Fin 4) ℚ

abbrev Mat34 := Matrix (Fin 3) (Fin 4) ℚ

/-- Top-left 3×3 block `M[0:3, 0:3]` of a 4×4 homogeneous pose. -/
def rotBlock (M : Mat4) : Mat3 :=
  Matrix.of fun i j => M i.castSucc j.castSucc

/-- Translation column `M[0:3, 3]` of a 4×4 homogeneous pose. -/
def transBlock (M : Mat4) : Fin 3 → ℚ :=
  fun i => M i.castSucc 3

/-- Lines 126-127: `np.vstack` of a raw 3×4 ground-truth pose row with the
homogeneous bottom row `[0, 0, 0, 1]`. -/
def toHom (p : Mat34) : Mat4 :=
  Matrix.of fun i j =>
    if h : (i : ℕ) < 3 then p ⟨(i : ℕ), h⟩ j
    else if j = 3 then 1 else 0

/-- `np.linalg.inv` on an (invertible) 4×4 matrix: the classical
adjugate / determinant inverse, exact over `ℚ`. -/
def npInv (A : Mat4) : Mat4 := A.det⁻¹ • A.adjugate

/-- Line 129: `pose2wrt1 = np.dot(np.linalg.inv(pose1), pose2)`. -/
def relativePose (p1 p2 : Mat4) : Mat4 := npInv p1 * p2

/-- A well-formed homogeneous rigid pose: bottom row `[0, 0, 0, 1]` and an
orthonormal rotation block. -/
def WellFormedPose (M : Mat4) : Prop :=
  M 3 0 = 0 ∧ M 3 1 = 0 ∧ M 3 2 = 0 ∧ M 3 3 = 1 ∧
    rotBlock M * (rotBlock M).transpose = 1

instance (M : Mat4) : Decidable (WellFormedPose M) :=
  inferInstanceAs (Decidable (M 3 0 = 0 ∧ M 3 1 = 0 ∧ M 3 2 = 0 ∧ M 3 3 = 1 ∧
    rotBlock M * (rotBlock M).transpose = 1))

/-- Rotation payload of the returned sample: a 3-vector (axis-angle or
Euler branches) or a 4-vector (quaternion branches). -/
inductive RotOut where
  | vec3 (v : Fin 3 → ℚ)
  | vec4 (v : Fin 4 → ℚ)

/-- The pose/label part of the record `__getitem__` returns
(the image tensor is an external collaborator and elided). -/
structure Sample where
  rot : RotOut
  t : Fin 3 → ℚ
  seqIdx : ℤ
  frame1 : ℤ
  frame2 : ℤ
  endOfSequence : Bool

/-- Pose/parameterization fragment of `KITTIDataset.__getitem__`
(lines 124-155).  `poses seq frame` is the raw 3×4 ground-truth pose read
from the per-sequence pose file; `rpy`, `q`, `eul` stand for the external
library converters `tr2rpy`, `r2q` and `tr2eul(., seq='xyz')`.  The outer
`Option` is the out-of-range failure of the routing step; the inner
`Option` is the value `__getitem__` returns: Python falls off the end of
the `if/elif` chain for an unrecognized parameterization and implicitly
returns `None`, modelled as `some none`. -/
def getitem (d : KITTIDataset) (poses : ℤ → ℤ → Mat34)
    (rpy : Mat3 → Fin 3 → ℚ) (q : Mat3 → Fin 4 → ℚ) (eul : Mat3 → Fin 3 → ℚ)
    (idx : ℤ) : Option (Option Sample) :=
  match lookup d idx with
  | none => none
  | some (seqIdx, frame1, frame2, endOfSequence) =>
    let pose1 := toHom (poses seqIdx frame1)
    let pose2 := toHom (poses seqIdx frame2)
    let pose2wrt1 := relativePose pose1 pose2
    let R := rotBlock pose2wrt1
    let t := transBlock pose2wrt1
    if d.parameterization = "default" then
      some (some ⟨RotOut.vec3 (rpy R), t, seqIdx, frame1, frame2, endOfSequence⟩)
    else if d.parameterization = "quaternion" then
      some (some ⟨RotOut.vec4 (q R), t, seqIdx, frame1, frame2, endOfSequence⟩)
    else if d.parameterization = "euler" then
      some (some ⟨RotOut.vec3 (fun i => 10 * eul R i), t, seqIdx, frame1, frame2, endOfSequence⟩)
    else if d.parameterization = "se3" then
      some (some ⟨RotOut.vec4 (q (rotBlock pose2)), transBlock pose2,
        seqIdx, frame1, frame2, endOfSequence⟩)
    else
      some none

/-- Span sum of a list of windows, `Σ (endFrame - startFrame)`. -/
def sumSpans (l : List (ℤ × ℤ × ℤ)) : ℤ :=
  (l.map fun t => t.2.2 - t.2.1).sum

/-- Successive values taken by `self.cumulativeLengths[i] = self.length`
when the accumulator starts at `acc`. -/
def cums (acc : ℤ) : List (ℤ × ℤ × ℤ) → List ℤ
  | [] => []
  | t :: rest => (acc + (t.2.2 - t.2.1)) :: cums (acc + (t.2.2 - t.2.1)) rest

/-- Concrete two-window dataset of the spec's worked example:
windows (seq 0, frames 0..3) and (seq 1, frames 0..2). -/
def dTwo : KITTIDataset := ⟨[0, 1], [0, 0], [3, 2], "default", 5, [3, 5]⟩

/-- Concrete one-window dataset (seq 0, frames 0..5) with a chosen tag. -/
def dOne (tag : String) : KITTIDataset := ⟨[0], [0], [5], tag, 5, [5]⟩

/-- Trivial stand-in for the external pose table (all-zero 3×4 rows). -/
def zeroPoses : ℤ → ℤ → Mat34 := fun _ _ => 0

/-- Trivial stand-ins for the external rotation converters. -/
def zeroV3 : Mat3 → Fin 3 → ℚ := fun _ _ => 0

/-- Trivial stand-in for the external quaternion converter. -/
def zeroV4 : Mat3 → Fin 4 → ℚ := fun _ _ => 0

/-- A concrete well-formed pose: rotation by 90 degrees about z and
translation (1, 2, 3). -/
def poseA : Mat4 := Matrix.of ![![0, -1, 0, 1], ![1, 0, 0, 2], ![0, 0, 1, 3], ![0, 0, 0, 1]]

/-- A concrete well-formed pose: identity rotation and translation (4, 5, 6). -/
def poseB : Mat4 := Matrix.of ![![1, 0, 0, 4], ![0, 1, 0, 5], ![0, 0, 1, 6], ![0, 0, 0, 1]]

/-! ### Structural lemmas about the constructor loop -/

lemma windowOk_span_pos {t : ℤ × ℤ × ℤ} (h : windowOk t) : 0 < t.2.2 - t.2.1 := by
  obtain ⟨h1, h2⟩ := h
  push_neg at h2
  omega

lemma zip3_length {as bs cs : List ℤ} (h1 : bs.length = as.length)
    (h2 : cs.length = as.length) : (zip3 as bs cs).length = as.length := by
  induction as generalizing bs cs with
  | nil => simp [zip3]
  | cons a as ih =>
    cases bs with
    | nil => simp at h1
    | cons b bs =>
      cases cs with
      | nil => simp at h2
      | cons c cs =>
        simp only [zip3, List.length_cons] at h1 h2 ⊢
        rw [ih (by omega) (by omega)]

lemma zip3_getD_mem {as bs cs : List ℤ} (i : ℕ) (hi : i < as.length)
    (h1 : bs.length = as.length) (h2 : cs.length = as.length) :
    (as.getD i 0, bs.getD i 0, cs.getD i 0) ∈ zip3 as bs cs := by
  induction as generalizing bs cs i with
  | nil => simp at hi
  | cons a as ih =>
    cases bs with
    | nil => simp at h1
    | cons b bs =>
      cases cs with
      | nil => simp at h2
      | cons c cs =>
        cases i with
        | zero => simp [zip3]
        | succ i =>
          simp only [zip3, List.getD_cons_succ, List.mem_cons]
          right
          exact ih i (by simp at hi; omega) (by simp at h1; omega) (by simp at h2; omega)

lemma cums_length (acc : ℤ) (l : List (ℤ × ℤ × ℤ)) : (cums acc l).length = l.length := by
  induction l generalizing acc with
  | nil => simp [cums]
  | cons t rest ih => simp [cums, ih]

lemma sumSpans_nil : sumSpans [] = 0 := rfl

lemma sumSpans_cons (t : ℤ × ℤ × ℤ) (rest : List (ℤ × ℤ × ℤ)) :
    sumSpans (t :: rest) = (t.2.2 - t.2.1) + sumSpans rest := by
  simp [sumSpans]

lemma cums_getLastD (acc : ℤ) (l : List (ℤ × ℤ × ℤ)) :
    (cums acc l).getLastD acc = acc + sumSpans l := by
  induction l generalizing acc with
  | nil => simp [cums, sumSpans_nil]
  | cons t rest ih =>
    rw [cums, List.getLastD_cons, ih, sumSpans_cons]
    ring

lemma sumSpans_nonneg {l : List (ℤ × ℤ × ℤ)} (h : ∀ t ∈ l, 0 < t.2.2 - t.2.1) :
    0 ≤ sumSpans l := by
  induction l with
  | nil => simp [sumSpans_nil]
  | cons t rest ih =>
    rw [sumSpans_cons]
    have h1 := h t (List.mem_cons_self t rest)
    have h2 := ih (fun u hu => h u (List.mem_cons_of_mem t hu))
    omega

lemma mem_cums_le {l : List (ℤ × ℤ × ℤ)} {acc x : ℤ}
    (hpos : ∀ t ∈ l, 0 < t.2.2 - t.2.1) (hx : x ∈ cums acc l) :
    x ≤ acc + sumSpans l := by
  induction l generalizing acc with
  | nil => simp [cums] at hx
  | cons t rest ih =>
    rw [cums, List.mem_cons] at hx
    have hpos' : ∀ u ∈ rest, 0 < u.2.2 - u.2.1 :=
      fun u hu => hpos u (List.mem_cons_of_mem t hu)
    rcases hx with rfl | hx
    · have := sumSpans_nonneg hpos'
      rw [sumSpans_cons]
      omega
    · have := ih hpos' hx
      rw [sumSpans_cons]
      omega

lemma getLastD_mem (l : List ℤ) (dflt : ℤ) (h : l ≠ []) : l.getLastD dflt ∈ l := by
  induction l generalizing dflt with
  | nil => exact absurd rfl h
  | cons x rest ih =>
    rw [List.getLastD_cons]
    cases rest with
    | nil => simp [List.getLastD]
    | cons y ys => exact List.mem_cons_of_mem x (ih x (by simp))

/-! ### Lemmas about the modelled `first_ge` -/

lemma first_ge_none_iff (lst : List ℤ) (idx : ℤ) :
    first_ge lst idx = none ↔ ∀ x ∈ lst, x ≤ idx := by
  induction lst with
  | nil => simp [first_ge]
  | cons x rest ih =>
    by_cases hx : idx < x
    · simp only [first_ge, if_pos hx]
      constructor
      · intro h; exact absurd h (by simp)
      · intro h; exact absurd (h x (List.mem_cons_self x rest)) (by omega)
    · simp only [first_ge, if_neg hx, Option.map_eq_none', ih, List.mem_cons]
      constructor
      · intro h y hy
        rcases hy with rfl | hy
        · omega
        · exact h y hy
      · intro h y hy
        exact h y (Or.inr hy)

lemma first_ge_some_spec {lst : List ℤ} {idx : ℤ} {k : ℕ}
    (h : first_ge lst idx = some k) :
    k < lst.length ∧ idx < lst.getD k 0 ∧ ∀ j < k, lst.getD j 0 ≤ idx := by
  induction lst generalizing k with
  | nil => simp [first_ge] at h
  | cons x rest ih =>
    by_cases hx : idx < x
    · rw [first_ge, if_pos hx] at h
      obtain rfl : k = 0 := by simpa using h.symm
      refine ⟨by simp, by simpa using hx, fun j hj => absurd hj (by omega)⟩
    · rw [first_ge, if_neg hx] at h
      rw [Option.map_eq_some'] at h
      obtain ⟨k', hk', rfl⟩ := h
      obtain ⟨hlen, hgt, hle⟩ := ih hk'
      refine ⟨by simpa using hlen, by simpa using hgt, ?_⟩
      intro j hj
      cases j with
      | zero => simpa using (by omega : x ≤ idx)
      | succ j => simpa using hle j (by omega)

lemma first_ge_isSome {lst : List ℤ} {idx x : ℤ} (hx : x ∈ lst) (hlt : idx < x) :
    ∃ k, first_ge lst idx = some k := by
  cases hk : first_ge lst idx with
  | some k => exact ⟨k, rfl⟩
  | none =>
    have := (first_ge_none_iff lst idx).mp hk x hx
    omega

/-! ### Characterization of the constructor -/

lemma initLoop_ok_elim : ∀ {l : List (ℤ × ℤ × ℤ)} {acc len : ℤ} {cum : List ℤ},
    initLoop true l acc = .ok (len, cum) →
    (∀ t ∈ l, windowOk t) ∧ len = acc + sumSpans l ∧ cum = cums acc l := by
  intro l
  induction l with
  | nil =>
    intro acc len cum h
    rw [initLoop] at h
    obtain ⟨rfl, rfl⟩ : acc = len ∧ [] = cum := by simpa using h
    simp [sumSpans_nil, cums]
  | cons t rest ih =>
    intro acc len cum h
    obtain ⟨seq, s, e⟩ := t
    rw [initLoop] at h
    by_cases h1 : s < 0 ∨ maxFrame seq < s
    · rw [if_pos h1] at h; simp at h
    rw [if_neg h1] at h
    by_cases h2 : e < 0 ∨ e ≤ s ∨ maxFrame seq < e
    · rw [if_pos h2] at h; simp at h
    rw [if_neg h2, if_pos rfl] at h
    cases hrec : initLoop true rest (acc + (e - s)) with
    | error er => rw [hrec] at h; simp at h
    | ok p =>
      obtain ⟨len', cum'⟩ := p
      rw [hrec] at h
      obtain ⟨rfl, rfl⟩ : len' = len ∧ (acc + (e - s)) :: cum' = cum := by simpa using h
      obtain ⟨hwin, hlen, hcum⟩ := ih hrec
      refine ⟨?_, ?_, ?_⟩
      · intro u hu
        rcases List.mem_cons.mp hu with rfl | hu
        · exact ⟨h1, h2⟩
        · exact hwin u hu
      · rw [hlen, sumSpans_cons]; ring
      · rw [cums, hcum]

lemma initLoop_ok_of {l : List (ℤ × ℤ × ℤ)} (hwin : ∀ t ∈ l, windowOk t) (acc : ℤ) :
    initLoop true l acc = .ok (acc + sumSpans l, cums acc l) := by
  induction l generalizing acc with
  | nil => simp [initLoop, sumSpans_nil, cums]
  | cons t rest ih =>
    obtain ⟨seq, s, e⟩ := t
    obtain ⟨h1, h2⟩ := hwin (seq, s, e) (List.mem_cons_self _ rest)
    rw [initLoop, if_neg h1, if_neg h2, if_pos rfl,
      ih (fun u hu => hwin u (List.mem_cons_of_mem _ hu)) (acc + (e - s))]
    rw [sumSpans_cons, cums]
    norm_num
    ring

lemma initLoop_error_shape : ∀ {l : List (ℤ × ℤ × ℤ)} {acc : ℤ} {er : ConsError},
    initLoop true l acc = .error er →
    (∃ s, er = .invalidStart s) ∨ (∃ s, er = .invalidEnd s) := by
  intro l
  induction l with
  | nil => intro acc er h; rw [initLoop] at h; simp at h
  | cons t rest ih =>
    intro acc er h
    obtain ⟨seq, s, e⟩ := t
    rw [initLoop] at h
    by_cases h1 : s < 0 ∨ maxFrame seq < s
    · rw [if_pos h1] at h
      exact Or.inl ⟨seq, by simpa using h.symm⟩
    rw [if_neg h1] at h
    by_cases h2 : e < 0 ∨ e ≤ s ∨ maxFrame seq < e
    · rw [if_pos h2] at h
      exact Or.inr ⟨seq, by simpa using h.symm⟩
    rw [if_neg h2, if_pos rfl] at h
    cases hrec : initLoop true rest (acc + (e - s)) with
    | error er' =>
      rw [hrec] at h
      obtain rfl : er' = er := by simpa using h
      exact ih hrec
    | ok p => obtain ⟨len', cum'⟩ := p; rw [hrec] at h; simp at h

lemma initLoop_false_ok {l : List (ℤ × ℤ × ℤ)} {acc : ℤ} {p : ℤ × List ℤ}
    (h : initLoop false l acc = .ok p) : l = [] := by
  cases l with
  | nil => rfl
  | cons t rest =>
    obtain ⟨seq, s, e⟩ := t
    rw [initLoop] at h
    by_cases h1 : s < 0 ∨ maxFrame seq < s
    · rw [if_pos h1] at h; simp at h
    rw [if_neg h1] at h
    by_cases h2 : e < 0 ∨ e ≤ s ∨ maxFrame seq < e
    · rw [if_pos h2] at h; simp at h
    rw [if_neg h2] at h
    simp at h

lemma kittiInitChecked_ok_elim {seqs sF eF : List ℤ} {rawOk : Bool} {tag : String}
    {d : KITTIDataset} (h : kittiInitChecked seqs sF eF rawOk tag = .ok d) :
    seqs ≠ [] ∧ (∀ s ∈ seqs, 0 ≤ s ∧ s ≤ 10) ∧
    sF.length = seqs.length ∧ eF.length = seqs.length ∧
    ∃ len cum, initLoop rawOk (zip3 seqs sF eF) 0 = .ok (len, cum) ∧ 0 ≤ len ∧
      d = ⟨seqs, sF, eF, tag, len, cum⟩ := by
  rw [kittiInitChecked] at h
  by_cases h1 : seqs = []
  · rw [if_pos h1] at h; simp at h
  rw [if_neg h1] at h
  by_cases h2 : ∃ s ∈ seqs, s < 0 ∨ 10 < s
  · rw [if_pos h2] at h; simp at h
  rw [if_neg h2] at h
  by_cases h3 : seqs.length ≠ sF.length
  · rw [if_pos h3] at h; simp at h
  rw [if_neg h3] at h
  by_cases h4 : seqs.length ≠ eF.length
  · rw [if_pos h4] at h; simp at h
  rw [if_neg h4] at h
  push_neg at h2 h3 h4
  refine ⟨h1, fun s hs => ?_, h3.symm, h4.symm, ?_⟩
  · have := h2 s hs
    omega
  · cases hloop : initLoop rawOk (zip3 seqs sF eF) 0 with
    | error er => rw [hloop] at h; simp at h
    | ok p =>
      obtain ⟨len, cum⟩ := p
      rw [hloop] at h
      dsimp only at h
      by_cases h5 : len < 0
      · rw [if_pos h5] at h; simp at h
      rw [if_neg h5] at h
      obtain rfl : (⟨seqs, sF, eF, tag, len, cum⟩ : KITTIDataset) = d := by simpa using h
      exact ⟨len, cum, rfl, by omega, rfl⟩

/-- Full characterization of a successful construction with explicitly
passed lists: the lists are validated and the length / cumulative table
are the span sums of the windows. -/
lemma kittiInit_ok_elim {seqs sF eF : List ℤ} {tag : String} {d : KITTIDataset}
    (h : kittiInit (some seqs) (some sF) (some eF) tag = .ok d) :
    seqs ≠ [] ∧ (∀ s ∈ seqs, 0 ≤ s ∧ s ≤ 10) ∧
    sF.length = seqs.length ∧ eF.length = seqs.length ∧
    (∀ t ∈ zip3 seqs sF eF, windowOk t) ∧
    d = ⟨seqs, sF, eF, tag, sumSpans (zip3 seqs sF eF), cums 0 (zip3 seqs sF eF)⟩ := by
  rw [kittiInit] at h
  simp only [Option.getD_some, Option.isSome_some, Bool.and_self] at h
  obtain ⟨hne, hrange, hlen1, hlen2, len, cum, hloop, hlen0, rfl⟩ :=
    kittiInitChecked_ok_elim h
  obtain ⟨hwin, hlen, hcum⟩ := initLoop_ok_elim hloop
  refine ⟨hne, hrange, hlen1, hlen2, hwin, ?_⟩
  rw [hlen, hcum]
  norm_num

lemma sumSpans_zip3 {as bs cs : List ℤ} (h1 : bs.length = as.length)
    (h2 : cs.length = as.length) :
    sumSpans (zip3 as bs cs) =
      ∑ i in Finset.range as.length, (cs.getD i 0 - bs.getD i 0) := by
  induction as generalizing bs cs with
  | nil => simp [zip3, sumSpans_nil]
  | cons a as ih =>
    cases bs with
    | nil => simp at h1
    | cons b bs =>
      cases cs with
      | nil => simp at h2
      | cons c cs =>
        simp only [zip3, List.length_cons] at h1 h2 ⊢
        rw [sumSpans_cons, Finset.sum_range_succ']
        simp only [List.getD_cons_succ, List.getD_cons_zero]
        rw [ih (by omega) (by omega)]
        ring

/-- Shared workhorse: on a validly constructed dataset, every in-range
index is routed by `first_ge` to the first window whose cumulative length
exceeds it, and `lookup` returns the corresponding frame pair. -/
lemma lookup_valid {seqs sF eF : List ℤ} {tag : String} {d : KITTIDataset} {idx : ℤ}
    (hinit : kittiInit (some seqs) (some sF) (some eF) tag = .ok d)
    (_h0 : 0 ≤ idx) (hlt : idx < d.length) :
    ∃ k, first_ge d.cumulativeLengths idx = some k ∧ k < seqs.length ∧
      idx < d.cumulativeLengths.getD k 0 ∧
      (∀ j < k, d.cumulativeLengths.getD j 0 ≤ idx) ∧
      lookup d idx = some (seqs.getD k 0,
        sF.getD k 0 + offsetOf d.cumulativeLengths k idx,
        sF.getD k 0 + offsetOf d.cumulativeLengths k idx + 1,
        decide (sF.getD k 0 + offsetOf d.cumulativeLengths k idx + 1 = eF.getD k 0)) := by
  obtain ⟨hne, hrange, hlen1, hlen2, hwin, rfl⟩ := kittiInit_ok_elim hinit
  dsimp only at hlt ⊢
  have hLlen : (zip3 seqs sF eF).length = seqs.length := zip3_length hlen1 hlen2
  have hLne : zip3 seqs sF eF ≠ [] := by
    intro hnil
    rw [hnil] at hLlen
    exact hne (List.length_eq_zero.mp hLlen.symm)
  have hpos : ∀ t ∈ zip3 seqs sF eF, 0 < t.2.2 - t.2.1 :=
    fun t ht => windowOk_span_pos (hwin t ht)
  have hcne : cums 0 (zip3 seqs sF eF) ≠ [] := by
    intro hnil
    have := cums_length 0 (zip3 seqs sF eF)
    rw [hnil] at this
    exact hLne (List.length_eq_zero.mp this.symm)
  have hlast : (cums 0 (zip3 seqs sF eF)).getLastD 0 = sumSpans (zip3 seqs sF eF) := by
    simpa using cums_getLastD 0 (zip3 seqs sF eF)
  have hmem : (cums 0 (zip3 seqs sF eF)).getLastD 0 ∈ cums 0 (zip3 seqs sF eF) :=
    getLastD_mem _ 0 hcne
  have hidxlt : idx < (cums 0 (zip3 seqs sF eF)).getLastD 0 := by rw [hlast]; exact hlt
  obtain ⟨k, hk⟩ := first_ge_isSome hmem hidxlt
  obtain ⟨hklen, hkgt, hkle⟩ := first_ge_some_spec hk
  rw [cums_length, hLlen] at hklen
  refine ⟨k, hk, hklen, hkgt, hkle, ?_⟩
  rw [lookup]
  rw [show first_ge (KITTIDataset.cumulativeLengths
    ⟨seqs, sF, eF, tag, sumSpans (zip3 seqs sF eF), cums 0 (zip3 seqs sF eF)⟩) idx
    = some k from hk]

/-! ### Claim theorems -/

/-- Claim C1: for every validly constructed dataset and every index
`0 ≤ idx < length`, the lookup step routes `idx` to the smallest window
index `k` with `cumulative[k] > idx`, computes
`offset = idx - cumulative[k-1]` (`idx` when `k = 0`) and returns
`frame1 = startFrame_k + offset`; on the two-window config
(seq 0, 0..3), (seq 1, 0..2), `lookup 3 = (seq 1, 0, 1, false)` and
`lookup 2 = (seq 0, 2, 3, true)`. -/
theorem claim_C1_lookup_routing :
    (∀ (seqs sF eF : List ℤ) (tag : String) (d : KITTIDataset) (idx : ℤ),
      kittiInit (some seqs) (some sF) (some eF) tag = .ok d →
      0 ≤ idx → idx < d.length →
      ∃ k, first_ge d.cumulativeLengths idx = some k ∧
        idx < d.cumulativeLengths.getD k 0 ∧
        (∀ j < k, d.cumulativeLengths.getD j 0 ≤ idx) ∧
        lookup d idx = some (seqs.getD k 0,
          sF.getD k 0 + offsetOf d.cumulativeLengths k idx,
          sF.getD k 0 + offsetOf d.cumulativeLengths k idx + 1,
          decide (sF.getD k 0 + offsetOf d.cumulativeLengths k idx + 1 = eF.getD k 0))) ∧
    (kittiInit (some [0, 1]) (some [0, 0]) (some [3, 2]) "default").toOption.map
        (fun d => (lookup d 3, lookup d 2)) =
      some (some (1, 0, 1, false), some (0, 2, 3, true)) := by
  constructor
  · intro seqs sF eF tag d idx hinit h0 hlt
    obtain ⟨k, h1, _, h2, h3, h4⟩ := lookup_valid hinit h0 hlt
    exact ⟨k, h1, h2, h3, h4⟩
  · rfl

/-- Witness for C1 at the two-window dataset and index 3. -/
theorem claim_C1_lookup_routing_witness :
    ∃ k, first_ge dTwo.cumulativeLengths 3 = some k ∧
      (3 : ℤ) < dTwo.cumulativeLengths.getD k 0 ∧
      (∀ j < k, dTwo.cumulativeLengths.getD j 0 ≤ (3 : ℤ)) ∧
      lookup dTwo 3 = some (([0, 1] : List ℤ).getD k 0,
        ([0, 0] : List ℤ).getD k 0 + offsetOf dTwo.cumulativeLengths k 3,
        ([0, 0] : List ℤ).getD k 0 + offsetOf dTwo.cumulativeLengths k 3 + 1,
        decide (([0, 0] : List ℤ).getD k 0 + offsetOf dTwo.cumulativeLengths k 3 + 1 =
          ([3, 2] : List ℤ).getD k 0)) :=
  claim_C1_lookup_routing.1 [0, 1] [0, 0] [3, 2] "default" dTwo 3 rfl (by decide) (by decide)

/-- Claim C2: for every validly constructed dataset and in-range index,
the lookup result satisfies `frame2 = frame1 + 1` and the end-of-sequence
flag is true iff `frame2` equals the `endFrame` of the owning window. -/
theorem claim_C2_frame_invariants :
    ∀ (seqs sF eF : List ℤ) (tag : String) (d : KITTIDataset) (idx : ℤ),
      kittiInit (some seqs) (some sF) (some eF) tag = .ok d →
      0 ≤ idx → idx < d.length →
      ∃ k s f1 b, first_ge d.cumulativeLengths idx = some k ∧
        idx < d.cumulativeLengths.getD k 0 ∧
        (∀ j < k, d.cumulativeLengths.getD j 0 ≤ idx) ∧
        lookup d idx = some (s, f1, f1 + 1, b) ∧
        (b = true ↔ f1 + 1 = d.endFrames.getD k 0) := by
  intro seqs sF eF tag d idx hinit h0 hlt
  obtain ⟨k, h1, _, h2, h3, h4⟩ := lookup_valid hinit h0 hlt
  obtain ⟨_, _, _, _, _, rfl⟩ := kittiInit_ok_elim hinit
  refine ⟨k, _, _, _, h1, h2, h3, h4, ?_⟩
  simp only [decide_eq_true_eq]

/-- Witness for C2 at the two-window dataset and index 2 (an
end-of-sequence pair). -/
theorem claim_C2_frame_invariants_witness :
    ∃ k s f1 b, first_ge dTwo.cumulativeLengths 2 = some k ∧
      (2 : ℤ) < dTwo.cumulativeLengths.getD k 0 ∧
      (∀ j < k, dTwo.cumulativeLengths.getD j 0 ≤ (2 : ℤ)) ∧
      lookup dTwo 2 = some (s, f1, f1 + 1, b) ∧
      (b = true ↔ f1 + 1 = dTwo.endFrames.getD k 0) :=
  claim_C2_frame_invariants [0, 1] [0, 0] [3, 2] "default" dTwo 2 rfl (by decide) (by decide)

/-- Claim C3: for every dataset whose construction succeeds, `__len__`
returns the sum of the window spans, which is also the last entry of the
cumulative-length table. -/
theorem claim_C3_length_eq :
    ∀ (seqs sF eF : List ℤ) (tag : String) (d : KITTIDataset),
      kittiInit (some seqs) (some sF) (some eF) tag = .ok d →
      datasetLength d = (∑ i in Finset.range seqs.length, (eF.getD i 0 - sF.getD i 0)) ∧
      datasetLength d = d.cumulativeLengths.getLastD 0 := by
  intro seqs sF eF tag d hinit
  obtain ⟨hne, _, hlen1, hlen2, _, rfl⟩ := kittiInit_ok_elim hinit
  constructor
  · dsimp only [datasetLength]
    exact sumSpans_zip3 hlen1 hlen2
  · dsimp only [datasetLength]
    rw [cums_getLastD 0 (zip3 seqs sF eF)]
    omega

/-- Witness for C3 at the two-window dataset. -/
theorem claim_C3_length_eq_witness :
    datasetLength dTwo =
      (∑ i in Finset.range ([0, 1] : List ℤ).length,
        (([3, 2] : List ℤ).getD i 0 - ([0, 0] : List ℤ).getD i 0)) ∧
    datasetLength dTwo = dTwo.cumulativeLengths.getLastD 0 :=
  claim_C3_length_eq [0, 1] [0, 0] [3, 2] "default" dTwo rfl

/-- Claim C7: construction fails eagerly with a distinct configuration
error for: a sequence id outside [0, 10]; a startFrames or endFrames list
whose length differs from the sequences list; and a window with
`endFrame ≤ startFrame` or a start/end frame outside `[0, maxFrame]`. -/
theorem claim_C7_eager_validation :
    (∀ (seqs sF eF : List ℤ) (tag : String) (s : ℤ), s ∈ seqs → (s < 0 ∨ 10 < s) →
      kittiInit (some seqs) (some sF) (some eF) tag = .error .seqRange) ∧
    (∀ (seqs sF eF : List ℤ) (tag : String), seqs ≠ [] →
      (∀ s ∈ seqs, 0 ≤ s ∧ s ≤ 10) → seqs.length ≠ sF.length →
      kittiInit (some seqs) (some sF) (some eF) tag = .error .startLenMismatch) ∧
    (∀ (seqs sF eF : List ℤ) (tag : String), seqs ≠ [] →
      (∀ s ∈ seqs, 0 ≤ s ∧ s ≤ 10) → seqs.length = sF.length → seqs.length ≠ eF.length →
      kittiInit (some seqs) (some sF) (some eF) tag = .error .endLenMismatch) ∧
    (∀ (seqs sF eF : List ℤ) (tag : String) (i : ℕ), seqs ≠ [] →
      (∀ s ∈ seqs, 0 ≤ s ∧ s ≤ 10) → seqs.length = sF.length → seqs.length = eF.length →
      i < seqs.length → ¬windowOk (seqs.getD i 0, sF.getD i 0, eF.getD i 0) →
      ∃ er, kittiInit (some seqs) (some sF) (some eF) tag = .error er ∧
        ((∃ s, er = .invalidStart s) ∨ (∃ s, er = .invalidEnd s))) := by
  refine ⟨?_, ?_, ?_, ?_⟩
  · intro seqs sF eF tag s hs hbad
    rw [kittiInit]
    simp only [Option.getD_some, Option.isSome_some, Bool.and_self]
    rw [kittiInitChecked, if_neg (by rintro rfl; simp at hs), if_pos ⟨s, hs, hbad⟩]
  · intro seqs sF eF tag hne hrange hmis
    rw [kittiInit]
    simp only [Option.getD_some, Option.isSome_some, Bool.and_self]
    rw [kittiInitChecked, if_neg hne,
      if_neg (by rintro ⟨s, hs, hbad⟩; have := hrange s hs; omega), if_pos hmis]
  · intro seqs sF eF tag hne hrange hlen1 hmis
    rw [kittiInit]
    simp only [Option.getD_some, Option.isSome_some, Bool.and_self]
    rw [kittiInitChecked, if_neg hne,
      if_neg (by rintro ⟨s, hs, hbad⟩; have := hrange s hs; omega),
      if_neg (by omega), if_pos hmis]
  · intro seqs sF eF tag i hne hrange hlen1 hlen2 hi hbad
    cases hloop : initLoop true (zip3 seqs sF eF) 0 with
    | error er =>
      refine ⟨er, ?_, initLoop_error_shape hloop⟩
      rw [kittiInit]
      simp only [Option.getD_some, Option.isSome_some, Bool.and_self]
      rw [kittiInitChecked, if_neg hne,
        if_neg (by rintro ⟨s, hs, hbad'⟩; have := hrange s hs; omega),
        if_neg (by omega), if_neg (by omega), hloop]
    | ok p =>
      exfalso
      obtain ⟨len, cum⟩ := p
      obtain ⟨hwin, _, _⟩ := initLoop_ok_elim hloop
      exact hbad (hwin _ (zip3_getD_mem i hi hlen1.symm hlen2.symm))

/-- Witness for C7: one concrete failing configuration per validation rule. -/
theorem claim_C7_eager_validation_witness :
    kittiInit (some [11]) (some [0]) (some [1]) "default" = .error .seqRange ∧
    kittiInit (some [0]) (some [0, 0]) (some [1]) "default" = .error .startLenMismatch ∧
    kittiInit (some [0]) (some [0]) (some [1, 2]) "default" = .error .endLenMismatch ∧
    ∃ er, kittiInit (some [0]) (some [5]) (some [5]) "default" = .error er ∧
      ((∃ s, er = .invalidStart s) ∨ (∃ s, er = .invalidEnd s)) :=
  ⟨claim_C7_eager_validation.1 [11] [0] [1] "default" 11 (by decide) (by decide),
   claim_C7_eager_validation.2.1 [0] [0, 0] [1] "default" (by decide) (by decide) (by decide),
   claim_C7_eager_validation.2.2.1 [0] [0] [1, 2] "default" (by decide) (by decide) (by decide)
     (by decide),
   claim_C7_eager_validation.2.2.2 [0] [5] [5] "default" 0 (by decide) (by decide) (by decide)
     (by decide) (by decide) (by decide)⟩

/-- Counterexample to claim C8: construction with the unrecognized
parameterization tag "bogus" succeeds instead of failing with a
configuration error. -/
theorem claim_C8_counterexample :
    kittiInit (some [0]) (some [0]) (some [5]) "bogus" = .ok (dOne "bogus") := rfl

/-- Amended claim C8: the constructor never validates the
parameterization tag (construction succeeds for any tag on a valid
window configuration), and a get call with an unrecognized tag falls
through every branch of the dispatch and returns no sample. -/
theorem claim_C8_no_tag_validation :
    (∀ tag : String, kittiInit (some [0]) (some [0]) (some [5]) tag = .ok (dOne tag)) ∧
    (∀ (seqs sF eF : List ℤ) (tag : String) (d : KITTIDataset)
      (poses : ℤ → ℤ → Mat34) (rpy : Mat3 → Fin 3 → ℚ) (q : Mat3 → Fin 4 → ℚ)
      (eul : Mat3 → Fin 3 → ℚ) (idx : ℤ),
      kittiInit (some seqs) (some sF) (some eF) tag = .ok d →
      tag ≠ "default" → tag ≠ "quaternion" → tag ≠ "euler" → tag ≠ "se3" →
      0 ≤ idx → idx < d.length →
      getitem d poses rpy q eul idx = some none) := by
  constructor
  · intro tag
    rfl
  · intro seqs sF eF tag d poses rpy q eul idx hinit hdef hquat heul hse3 h0 hlt
    obtain ⟨k, h1, hk, h2, h3, h4⟩ := lookup_valid hinit h0 hlt
    obtain ⟨_, _, _, _, _, rfl⟩ := kittiInit_ok_elim hinit
    rw [getitem, h4]
    dsimp only
    rw [if_neg hdef, if_neg hquat, if_neg heul, if_neg hse3]

/-- Witness for the amended C8 at the tag "bogus". -/
theorem claim_C8_no_tag_validation_witness :
    getitem (dOne "bogus") zeroPoses zeroV3 zeroV4 zeroV3 0 = some none :=
  claim_C8_no_tag_validation.2 [0] [0] [5] "bogus" (dOne "bogus") zeroPoses zeroV3 zeroV4
    zeroV3 0 rfl (by decide) (by decide) (by decide) (by decide) (by decide) (by decide)

/-- Counterexample to claim C9: `get(-1)` on the two-window dataset does
not fail; the routing returns the frame pair `(-1, 0)` of sequence 0 and
`getitem` returns a sample. -/
theorem claim_C9_counterexample :
    (kittiInit (some [0, 1]) (some [0, 0]) (some [3, 2]) "default").toOption.map
      (fun d => lookup d (-1)) = some (some (0, -1, 0, false)) ∧
    (kittiInit (some [0, 1]) (some [0, 0]) (some [3, 2]) "default").toOption.map
      (fun d => (getitem d zeroPoses zeroV3 zeroV4 zeroV3 (-1)).isSome) = some true :=
  ⟨rfl, rfl⟩

/-- Amended claim C9: on a validly constructed dataset, `get(idx)` fails
with an out-of-range error for `idx ≥ length`, but a negative `idx` is
not rejected: it is routed to window 0 and yields the out-of-window frame
pair `(startFrame_0 + idx, startFrame_0 + idx + 1)` with the
end-of-sequence flag false. -/
theorem claim_C9_range_behavior :
    (∀ (seqs sF eF : List ℤ) (tag : String) (d : KITTIDataset)
      (poses : ℤ → ℤ → Mat34) (rpy : Mat3 → Fin 3 → ℚ) (q : Mat3 → Fin 4 → ℚ)
      (eul : Mat3 → Fin 3 → ℚ) (idx : ℤ),
      kittiInit (some seqs) (some sF) (some eF) tag = .ok d →
      d.length ≤ idx →
      lookup d idx = none ∧ getitem d poses rpy q eul idx = none) ∧
    (∀ (seqs sF eF : List ℤ) (tag : String) (d : KITTIDataset) (idx : ℤ),
      kittiInit (some seqs) (some sF) (some eF) tag = .ok d →
      idx < 0 →
      lookup d idx = some (seqs.getD 0 0, sF.getD 0 0 + idx, sF.getD 0 0 + idx + 1, false)) := by
  constructor
  · intro seqs sF eF tag d poses rpy q eul idx hinit hge
    obtain ⟨hne, hrange, hlen1, hlen2, hwin, rfl⟩ := kittiInit_ok_elim hinit
    dsimp only at hge
    have hpos : ∀ t ∈ zip3 seqs sF eF, 0 < t.2.2 - t.2.1 :=
      fun t ht => windowOk_span_pos (hwin t ht)
    have hall : ∀ x ∈ cums 0 (zip3 seqs sF eF), x ≤ idx := by
      intro x hx
      have := mem_cums_le hpos hx
      omega
    have hnone : first_ge (cums 0 (zip3 seqs sF eF)) idx = none :=
      (first_ge_none_iff _ _).mpr hall
    have hlk : lookup ⟨seqs, sF, eF, tag, sumSpans (zip3 seqs sF eF),
        cums 0 (zip3 seqs sF eF)⟩ idx = none := by
      rw [lookup]
      rw [show first_ge (KITTIDataset.cumulativeLengths ⟨seqs, sF, eF, tag,
        sumSpans (zip3 seqs sF eF), cums 0 (zip3 seqs sF eF)⟩) idx = none from hnone]
    exact ⟨hlk, by rw [getitem, hlk]⟩
  · intro seqs sF eF tag d idx hinit hneg
    obtain ⟨hne, hrange, hlen1, hlen2, hwin, rfl⟩ := kittiInit_ok_elim hinit
    cases seqs with
    | nil => exact absurd rfl hne
    | cons a as =>
      cases sF with
      | nil => simp at hlen1
      | cons b bs =>
        cases eF with
        | nil => simp at hlen2
        | cons c cs =>
          have hmem : (a, b, c) ∈ zip3 (a :: as) (b :: bs) (c :: cs) := by
            simp [zip3]
          have hspan : 0 < c - b := windowOk_span_pos (hwin _ hmem)
          have hfg : first_ge (cums 0 (zip3 (a :: as) (b :: bs) (c :: cs))) idx = some 0 := by
            rw [show cums 0 (zip3 (a :: as) (b :: bs) (c :: cs)) =
              (0 + (c - b)) :: cums (0 + (c - b)) (zip3 as bs cs) from rfl]
            rw [first_ge, if_pos (by omega)]
          rw [lookup]
          rw [show first_ge (KITTIDataset.cumulativeLengths ⟨a :: as, b :: bs, c :: cs, tag,
            sumSpans (zip3 (a :: as) (b :: bs) (c :: cs)),
            cums 0 (zip3 (a :: as) (b :: bs) (c :: cs))⟩) idx = some 0 from hfg]
          dsimp only
          rw [offsetOf, if_pos rfl]
          simp only [List.getD_cons_zero, Option.some.injEq, Prod.mk.injEq]
          refine ⟨trivial, trivial, trivial, ?_⟩
          exact decide_eq_false (by omega)

/-- Witness for the amended C9: index 5 is out of range on the
two-window dataset and fails; index -9 yields an out-of-window pair. -/
theorem claim_C9_range_behavior_witness :
    (lookup dTwo 5 = none ∧ getitem dTwo zeroPoses zeroV3 zeroV4 zeroV3 5 = none) ∧
    lookup dTwo (-9) = some (([0, 1] : List ℤ).getD 0 0,
      ([0, 0] : List ℤ).getD 0 0 + (-9), ([0, 0] : List ℤ).getD 0 0 + (-9) + 1, false) :=
  ⟨claim_C9_range_behavior.1 [0, 1] [0, 0] [3, 2] "default" dTwo zeroPoses zeroV3 zeroV4
      zeroV3 5 rfl (by decide),
   claim_C9_range_behavior.2 [0, 1] [0, 0] [3, 2] "default" dTwo (-9) rfl (by decide)⟩

/-- Counterexample to claim C10: constructing with `startFrames` and
`endFrames` omitted but `sequences = [0, 1]` fails with the
length-mismatch configuration `ValueError`, not with a type error. -/
theorem claim_C10_counterexample :
    kittiInit (some [0, 1]) none none "default" = .error .startLenMismatch ∧
    ConsError.startLenMismatch ≠ ConsError.typeError :=
  ⟨rfl, by decide⟩

/-- Amended claim C10: constructing while omitting `startFrames` and
`endFrames` always fails, so the documented fallback defaults `[0]` and
`[1100]` are never usable; on the default `sequences = [1]` (and on any
single in-range sequence whose max frame admits the default window) the
failure is the `TypeError` raised by the length accumulation reading the
raw constructor parameters, while other `sequences` lists may fail
earlier with a configuration `ValueError`. -/
theorem claim_C10_defaults_unusable :
    (∀ (seqsArg : Option (List ℤ)) (tag : String),
      ∃ er, kittiInit seqsArg none none tag = .error er) ∧
    (∀ tag : String, kittiInit none none none tag = .error .typeError) ∧
    (∀ (s : ℤ) (tag : String), 0 ≤ s → s ≤ 10 → 1100 ≤ maxFrame s →
      kittiInit (some [s]) none none tag = .error .typeError) := by
  refine ⟨?_, ?_, ?_⟩
  · intro seqsArg tag
    cases seqsArg with
    | none => exact ⟨.typeError, rfl⟩
    | some seqs =>
      cases hout : kittiInit (some seqs) none none tag with
      | error er => exact ⟨er, rfl⟩
      | ok d =>
        exfalso
        rw [kittiInit] at hout
        simp only [Option.getD_some, Option.getD_none, Option.isSome_none,
          Bool.and_self] at hout
        obtain ⟨hne, _, hlen1, hlen2, len, cum, hloop, _, _⟩ :=
          kittiInitChecked_ok_elim hout
        have hz := initLoop_false_ok hloop
        have hl := zip3_length hlen1 hlen2
        rw [hz] at hl
        exact hne (List.length_eq_zero.mp hl.symm)
  · intro tag
    rfl
  · intro s tag h1 h2 h3
    rw [kittiInit]
    simp only [Option.getD_some, Option.getD_none, Option.isSome_none, Bool.and_self]
    rw [kittiInitChecked]
    rw [if_neg (by simp)]
    rw [if_neg (by simp; omega)]
    rw [if_neg (by simp)]
    rw [if_neg (by simp)]
    rw [show zip3 [s] [0] [1100] = [(s, 0, 1100)] from rfl]
    rw [initLoop]
    rw [if_neg (by omega)]
    rw [if_neg (by omega)]
    rfl

/-- Witness for the amended C10: the default, a frame-range-violating, and
a type-error-producing configuration. -/
theorem claim_C10_defaults_unusable_witness :
    (∃ er, kittiInit (some [3]) none none "default" = .error er) ∧
    kittiInit none none none "euler" = .error .typeError ∧
    kittiInit (some [1]) none none "default" = .error .typeError :=
  ⟨claim_C10_defaults_unusable.1 (some [3]) "default",
   claim_C10_defaults_unusable.2.1 "euler",
   claim_C10_defaults_unusable.2.2 1 "default" (by decide) (by decide) (by decide)⟩

/-! ### Matrix lemmas for the relative-pose computation -/

lemma npInv_eq_inv (A : Mat4) : npInv A = A⁻¹ := by
  rw [npInv, Matrix.inv_def, Ring.inverse_eq_inv]

lemma rotBlock_eq_submatrix (M : Mat4) :
    M.submatrix (Fin.succAbove 3) (Fin.succAbove 3) = rotBlock M := by
  rw [show (3 : Fin 4) = Fin.last 3 from rfl, Fin.succAbove_last]
  rfl

lemma det_wellFormed {M : Mat4} (h : WellFormedPose M) : M.det = (rotBlock M).det := by
  obtain ⟨h0, h1, h2, h3, _⟩ := h
  rw [Matrix.det_succ_row M 3, Fin.sum_univ_four]
  rw [h0, h1, h2, h3]
  rw [rotBlock_eq_submatrix]
  norm_num

lemma isUnit_det_wellFormed {M : Mat4} (h : WellFormedPose M) : IsUnit M.det := by
  have h5 := h.2.2.2.2
  have hsq : (rotBlock M).det * (rotBlock M).det = 1 := by
    have hc := congrArg Matrix.det h5
    rwa [Matrix.det_mul, Matrix.det_transpose, Matrix.det_one] at hc
  rw [det_wellFormed h]
  exact isUnit_of_mul_eq_one _ _ hsq

/-- Claim C4: for well-formed 4×4 homogeneous poses, the relative pose
used by `__getitem__` is `M = inverse(pose1) · pose2` (so that
`pose1 · M = pose2`), and the returned rotation and translation are the
blocks `M[0:3, 0:3]` and `M[0:3, 3]` of that product. -/
theorem claim_C4_relative_pose :
    ∀ (p1 p2 : Mat4), WellFormedPose p1 → WellFormedPose p2 →
      relativePose p1 p2 = p1⁻¹ * p2 ∧
      p1 * relativePose p1 p2 = p2 ∧
      rotBlock (relativePose p1 p2) = rotBlock (p1⁻¹ * p2) ∧
      transBlock (relativePose p1 p2) = transBlock (p1⁻¹ * p2) := by
  intro p1 p2 h1 h2
  have he : relativePose p1 p2 = p1⁻¹ * p2 := by rw [relativePose, npInv_eq_inv]
  refine ⟨he, ?_, by rw [he], by rw [he]⟩
  rw [he, ← Matrix.mul_assoc, Matrix.mul_nonsing_inv p1 (isUnit_det_wellFormed h1),
    Matrix.one_mul]

/-- Witness for C4 at two concrete rational rigid poses. -/
theorem claim_C4_relative_pose_witness :
    WellFormedPose poseA ∧ WellFormedPose poseB ∧
      (relativePose poseA poseB = poseA⁻¹ * poseB ∧
       poseA * relativePose poseA poseB = poseB ∧
       rotBlock (relativePose poseA poseB) = rotBlock (poseA⁻¹ * poseB) ∧
       transBlock (relativePose poseA poseB) = transBlock (poseA⁻¹ * poseB)) := by
  have hA : WellFormedPose poseA := by
    refine ⟨rfl, rfl, rfl, rfl, ?_⟩
    ext i j
    fin_cases i <;> fin_cases j <;>
      simp [poseA, rotBlock, Matrix.mul_apply, Fin.sum_univ_three, Matrix.one_apply,
        show Fin.castSucc 0 = (0 : Fin 4) from by decide,
        show Fin.castSucc 1 = (1 : Fin 4) from by decide,
        show Fin.castSucc 2 = (2 : Fin 4) from by decide,
        Matrix.cons_val_two, Matrix.cons_val_three]
  have hB : WellFormedPose poseB := by
    refine ⟨rfl, rfl, rfl, rfl, ?_⟩
    ext i j
    fin_cases i <;> fin_cases j <;>
      simp [poseB, rotBlock, Matrix.mul_apply, Fin.sum_univ_three, Matrix.one_apply,
        show Fin.castSucc 0 = (0 : Fin 4) from by decide,
        show Fin.castSucc 1 = (1 : Fin 4) from by decide,
        show Fin.castSucc 2 = (2 : Fin 4) from by decide,
        Matrix.cons_val_two, Matrix.cons_val_three]
  exact ⟨hA, hB, claim_C4_relative_pose poseA poseB hA hB⟩

/-- Claim C5: for a valid index, the `se3` branch extracts the returned
quaternion and translation from the absolute pose of frame2, not from the
relative frame1-to-frame2 pose; the other three branches encode the
relative rotation (and the relative translation). -/
theorem claim_C5_se3_uses_absolute_pose :
    ∀ (seqs sF eF : List ℤ) (tag : String) (d : KITTIDataset)
      (poses : ℤ → ℤ → Mat34) (rpy : Mat3 → Fin 3 → ℚ) (q : Mat3 → Fin 4 → ℚ)
      (eul : Mat3 → Fin 3 → ℚ) (idx : ℤ),
      kittiInit (some seqs) (some sF) (some eF) tag = .ok d →
      0 ≤ idx → idx < d.length →
      ∃ s f1 f2 b, lookup d idx = some (s, f1, f2, b) ∧
        (tag = "se3" →
          getitem d poses rpy q eul idx = some (some
            ⟨RotOut.vec4 (q (rotBlock (toHom (poses s f2)))),
             transBlock (toHom (poses s f2)), s, f1, f2, b⟩)) ∧
        (tag = "default" →
          getitem d poses rpy q eul idx = some (some
            ⟨RotOut.vec3 (rpy (rotBlock (relativePose (toHom (poses s f1))
               (toHom (poses s f2))))),
             transBlock (relativePose (toHom (poses s f1)) (toHom (poses s f2))),
             s, f1, f2, b⟩)) ∧
        (tag = "quaternion" →
          getitem d poses rpy q eul idx = some (some
            ⟨RotOut.vec4 (q (rotBlock (relativePose (toHom (poses s f1))
               (toHom (poses s f2))))),
             transBlock (relativePose (toHom (poses s f1)) (toHom (poses s f2))),
             s, f1, f2, b⟩)) ∧
        (tag = "euler" →
          getitem d poses rpy q eul idx = some (some
            ⟨RotOut.vec3 (fun i => 10 * eul (rotBlock (relativePose (toHom (poses s f1))
               (toHom (poses s f2)))) i),
             transBlock (relativePose (toHom (poses s f1)) (toHom (poses s f2))),
             s, f1, f2, b⟩)) := by
  intro seqs sF eF tag d poses rpy q eul idx hinit h0 hlt
  obtain ⟨k, h1, hk, h2, h3, h4⟩ := lookup_valid hinit h0 hlt
  obtain ⟨_, _, _, _, _, rfl⟩ := kittiInit_ok_elim hinit
  refine ⟨_, _, _, _, h4, ?_, ?_, ?_, ?_⟩
  · rintro rfl
    rw [getitem, h4]
    dsimp only
    rw [if_neg (by decide), if_neg (by decide), if_neg (by decide), if_pos rfl]
  · rintro rfl
    rw [getitem, h4]
    dsimp only
    rw [if_pos rfl]
  · rintro rfl
    rw [getitem, h4]
    dsimp only
    rw [if_neg (by decide), if_pos rfl]
  · rintro rfl
    rw [getitem, h4]
    dsimp only
    rw [if_neg (by decide), if_neg (by decide), if_pos rfl]

/-- Witness for C5 at the one-window dataset with tag "se3" and trivial
external pose/encoder functions. -/
theorem claim_C5_se3_uses_absolute_pose_witness :
    ∃ s f1 f2 b, lookup (dOne "se3") 0 = some (s, f1, f2, b) ∧
      ("se3" = "se3" →
        getitem (dOne "se3") zeroPoses zeroV3 zeroV4 zeroV3 0 = some (some
          ⟨RotOut.vec4 (zeroV4 (rotBlock (toHom (zeroPoses s f2)))),
           transBlock (toHom (zeroPoses s f2)), s, f1, f2, b⟩)) ∧
      ("se3" = "default" →
        getitem (dOne "se3") zeroPoses zeroV3 zeroV4 zeroV3 0 = some (some
          ⟨RotOut.vec3 (zeroV3 (rotBlock (relativePose (toHom (zeroPoses s f1))
             (toHom (zeroPoses s f2))))),
           transBlock (relativePose (toHom (zeroPoses s f1)) (toHom (zeroPoses s f2))),
           s, f1, f2, b⟩)) ∧
      ("se3" = "quaternion" →
        getitem (dOne "se3") zeroPoses zeroV3 zeroV4 zeroV3 0 = some (some
          ⟨RotOut.vec4 (zeroV4 (rotBlock (relativePose (toHom (zeroPoses s f1))
             (toHom (zeroPoses s f2))))),
           transBlock (relativePose (toHom (zeroPoses s f1)) (toHom (zeroPoses s f2))),
           s, f1, f2, b⟩)) ∧
      ("se3" = "euler" →
        getitem (dOne "se3") zeroPoses zeroV3 zeroV4 zeroV3 0 = some (some
          ⟨RotOut.vec3 (fun i => 10 * zeroV3 (rotBlock (relativePose (toHom (zeroPoses s f1))
             (toHom (zeroPoses s f2)))) i),
           transBlock (relativePose (toHom (zeroPoses s f1)) (toHom (zeroPoses s f2))),
           s, f1, f2, b⟩)) :=
  claim_C5_se3_uses_absolute_pose [0] [0] [5] "se3" (dOne "se3") zeroPoses zeroV3 zeroV4
    zeroV3 0 rfl (by decide) (by decide)

/-- Claim C6: with the `euler` parameterization, each component of the
returned rotation vector is exactly 10 times the corresponding component
of the unscaled Euler decomposition of the relative rotation. -/
theorem claim_C6_euler_times_ten :
    ∀ (seqs sF eF : List ℤ) (d : KITTIDataset)
      (poses : ℤ → ℤ → Mat34) (rpy : Mat3 → Fin 3 → ℚ) (q : Mat3 → Fin 4 → ℚ)
      (eul : Mat3 → Fin 3 → ℚ) (idx : ℤ),
      kittiInit (some seqs) (some sF) (some eF) "euler" = .ok d →
      0 ≤ idx → idx < d.length →
      ∃ s f1 f2 b v, lookup d idx = some (s, f1, f2, b) ∧
        getitem d poses rpy q eul idx = some (some
          ⟨RotOut.vec3 v,
           transBlock (relativePose (toHom (poses s f1)) (toHom (poses s f2))),
           s, f1, f2, b⟩) ∧
        ∀ i, v i = 10 * eul (rotBlock (relativePose (toHom (poses s f1))
          (toHom (poses s f2)))) i := by
  intro seqs sF eF d poses rpy q eul idx hinit h0 hlt
  obtain ⟨k, h1, hk, h2, h3, h4⟩ := lookup_valid hinit h0 hlt
  obtain ⟨_, _, _, _, _, rfl⟩ := kittiInit_ok_elim hinit
  refine ⟨_, _, _, _, _, h4, ?_, fun i => rfl⟩
  rw [getitem, h4]
  dsimp only
  rw [if_neg (by decide), if_neg (by decide), if_pos rfl]

/-- Witness for C6 at the one-window dataset with tag "euler" and trivial
external pose/encoder functions. -/
theorem claim_C6_euler_times_ten_witness :
    ∃ s f1 f2 b v, lookup (dOne "euler") 0 = some (s, f1, f2, b) ∧
      getitem (dOne "euler") zeroPoses zeroV3 zeroV4 zeroV3 0 = some (some
        ⟨RotOut.vec3 v,
         transBlock (relativePose (toHom (zeroPoses s f1)) (toHom (zeroPoses s f2))),
         s, f1, f2, b⟩) ∧
      ∀ i, v i = 10 * zeroV3 (rotBlock (relativePose (toHom (zeroPoses s f1))
        (toHom (zeroPoses s f2)))) i :=
  claim_C6_euler_times_ten [0] [0] [5] (dOne "euler") zeroPoses zeroV3 zeroV4 zeroV3 0
    rfl (by decide) (by decide)
